import Mathlib

/-!
Verification development for the stream-recap server (src/server-recap.js).

The recap generation engine is embedded shallowly:
timestamps are `Int` milliseconds, clip ids are `Nat`, in-memory maps are
association lists, and the filesystem directories (`videos/`, `clips/`,
`temp/`) are lists of names held in an explicit `ServerState`.
The external encoder is an oracle: its exit code is a parameter of the run.
-/

namespace StreamRecap

/-- A clip record as stored in the `clips` map (server-recap.js, `createClip`):
`{id, category, title, startTime, endTime, createdAt, processed}`.
Times are epoch milliseconds (`Date#getTime`). -/
structure Clip where
  id : Nat
  category : String
  title : String
  startTime : Int
  endTime : Int
  createdAt : Int
  processed : Bool
  deriving DecidableEq, Repr

/-- The key the `catch` handler of `generateRecapVideo` deletes from
`generatingVideos` (line 352): the template `channelId_minutesLatemin`,
with no timestamp component. -/
def recapBaseKey (channelId : String) (minutesLate : Int) : String :=
  channelId ++ "_" ++ toString minutesLate ++ "min"

/-- The video id computed at the top of `generateRecapVideo` (line 229):
the template `channelId_minutesLatemin_Date.now()`.  It is the key used for
the cache check, the in-flight check, and the in-flight marker. -/
def videoId (channelId : String) (minutesLate : Int) (ts : Int) : String :=
  recapBaseKey channelId minutesLate ++ "_" ++ toString ts

/-- `cutoffTime` (line 270): `now - minutesLate * 60000`. -/
def cutoffTime (now minutesLate : Int) : Int :=
  now - minutesLate * 60000

/-- The order behind the JS comparator `(a, b) => b.startTime - a.startTime`
(descending startTime).  `Array.prototype.sort` is a stable comparator sort,
modelled by the stable `List.insertionSort`. -/
def clipDescOrder (a b : Clip) : Prop := b.startTime ≤ a.startTime

instance : DecidableRel clipDescOrder :=
  fun a b => inferInstanceAs (Decidable (b.startTime ≤ a.startTime))

instance : IsTotal Clip clipDescOrder :=
  ⟨fun a b => le_total b.startTime a.startTime⟩

instance : IsTrans Clip clipDescOrder :=
  ⟨fun _ _ _ h1 h2 => le_trans h2 h1⟩

/-- Clip selection (lines 272-275): filter `startTime < cutoff`, sort by
startTime descending, keep at most the first 5. -/
def selectRelevantClips (streamClips : List Clip) (minutesLate now : Int) : List Clip :=
  ((List.insertionSort clipDescOrder
    (streamClips.filter (fun c => c.startTime < cutoffTime now minutesLate))).take 5)

/-- `totalDurationPerClip` (line 283): `Math.floor(60000 / n)` in ms. -/
def totalDurationPerClipMs (n : Nat) : Nat :=
  60000 / n

/-- `durationPerClip` (line 284): `Math.floor(totalDurationPerClip / 1000)`
in seconds. -/
def durationPerClipSeconds (n : Nat) : Nat :=
  totalDurationPerClipMs n / 1000

/-- Clip media resolution with placeholder synthesis (lines 293-305).
The `clips/` directory is `store`, an association list from clip id to the
duration the placeholder file was synthesized with.  For each selected clip
id: if no file exists for it, synthesize one of the currently requested
duration (`createTestClipVideo`); in all cases append a manifest entry
`(id, requested duration)` for the FFmpeg list file.
Returns the updated store and the manifest. -/
def resolveClips (store : List (Nat × Nat)) (ids : List Nat) (dur : Nat) :
    List (Nat × Nat) × List (Nat × Nat) :=
  match ids with
  | [] => (store, [])
  | i :: rest =>
      let store1 := if (store.lookup i).isSome then store else (i, dur) :: store
      let r := resolveClips store1 rest dur
      (r.1, (i, dur) :: r.2)

/-- The mutable server state touched by `generateRecapVideo` and the cleanup
sweep: the `clips` map, the `videos/` directory (by video id), the
`generatingVideos` map (by key), the `clips/` directory (clip id with the
duration its placeholder was synthesized with), and the `temp/` directory. -/
structure ServerState where
  clips : List (String × List Clip)
  videos : List String
  generating : List String
  clipFiles : List (Nat × Nat)
  tempFiles : List String
  deriving DecidableEq, Repr

/-- The possible resolutions of one `generateRecapVideo` call:
cache hit (`cached: true`), entering the poll-wait branch (pending promise),
the two selection errors, encoder success (with the reported duration
`durationPerClip * relevantClips.length`), and the fixed encoder-failure
value `{error: 'Failed to generate video'}`. -/
inductive RecapResult where
  | cachedHit (id : String)
  | pollWait (id : String)
  | noClips
  | noRelevantClips
  | videoReady (id : String) (durationSeconds : Nat)
  | encodingFailed
  deriving DecidableEq, Repr

/-- Outcome of one `generateRecapVideo` call: its resolution, the state it
leaves behind, whether the encoder process was spawned, and the manifest
entries written to the list file. -/
structure GenOutcome where
  result : RecapResult
  state : ServerState
  encoderInvoked : Bool
  manifest : List (Nat × Nat)
  deriving DecidableEq, Repr

/-- One complete run of `generateRecapVideo` (lines 227-355) on the happy
control flow (no internal exception; the `catch` path is modelled separately
by `exceptionCatchCleanup`).  `tsEntry` is the `Date.now()` of line 229
(key computation) and `tsSelect` the `Date.now()` of line 269 (cutoff);
`exitCode` is the encoder process's exit code. -/
def generateRecapVideo (st : ServerState) (channelId : String) (minutesLate : Int)
    (tsEntry tsSelect : Int) (exitCode : Nat) : GenOutcome :=
  let vid := videoId channelId minutesLate tsEntry
  if vid ∈ st.videos then
    ⟨RecapResult.cachedHit vid, st, false, []⟩
  else if vid ∈ st.generating then
    ⟨RecapResult.pollWait vid, st, false, []⟩
  else
    let stMarked : ServerState := { st with generating := vid :: st.generating }
    let streamClips := (List.lookup channelId st.clips).getD []
    if streamClips.isEmpty then
      ⟨RecapResult.noClips,
       { stMarked with generating := stMarked.generating.erase vid }, false, []⟩
    else
      let relevantClips := selectRelevantClips streamClips minutesLate tsSelect
      if relevantClips.isEmpty then
        ⟨RecapResult.noRelevantClips,
         { stMarked with generating := stMarked.generating.erase vid }, false, []⟩
      else
        let durationPerClip := durationPerClipSeconds relevantClips.length
        let rm := resolveClips stMarked.clipFiles (relevantClips.map Clip.id) durationPerClip
        let listFile := vid ++ "_list"
        let stClosed : ServerState :=
          { stMarked with
            clipFiles := rm.1,
            generating := stMarked.generating.erase vid,
            tempFiles := (listFile :: stMarked.tempFiles).erase listFile }
        if exitCode = 0 then
          ⟨RecapResult.videoReady vid (durationPerClip * relevantClips.length),
           { stClosed with videos := vid :: stClosed.videos }, true, rm.2⟩
        else
          ⟨RecapResult.encodingFailed, stClosed, true, rm.2⟩

/-- The `catch` handler of `generateRecapVideo` (lines 350-354): on an
internal exception it performs
`generatingVideos.delete(channelId_minutesLatemin)` — note the deleted key
has no timestamp suffix. -/
def exceptionCatchCleanup (st : ServerState) (channelId : String) (minutesLate : Int) :
    ServerState :=
  { st with generating := st.generating.erase (recapBaseKey channelId minutesLate) }

/-- A file of the `videos/` directory as seen by the cleanup sweep:
its name and its `mtimeMs`. -/
structure FileRecord where
  name : String
  mtimeMs : Int
  deriving DecidableEq, Repr

/-- `age24h` (line 415): 24 hours in milliseconds. -/
def maxVideoAgeMs : Int := 24 * 60 * 60 * 1000

/-- What one cleanup sweep did: the files whose `unlinkSync` was reached,
and those actually deleted. -/
structure SweepOutcome where
  attempted : List String
  deleted : List String
  deriving DecidableEq, Repr

/-- The hourly cleanup sweep (lines 406-425): `files.forEach` deletes every
file with `now - mtimeMs > age24h`.  `unlinkFails` tells which `unlinkSync`
calls throw.  The single try/catch wraps the whole `forEach`, so a throw
aborts the remaining iterations (the error is logged outside the loop). -/
def cleanupSweep (now : Int) (unlinkFails : String → Bool) :
    List FileRecord → SweepOutcome
  | [] => ⟨[], []⟩
  | f :: rest =>
      if now - f.mtimeMs > maxVideoAgeMs then
        if unlinkFails f.name then
          ⟨[f.name], []⟩
        else
          let r := cleanupSweep now unlinkFails rest
          ⟨f.name :: r.attempted, f.name :: r.deleted⟩
      else
        cleanupSweep now unlinkFails rest

/-- The single stored clip of the demo channel. -/
def demoClip : Clip := ⟨7, "g", "t", 0, 1000, 0, false⟩

/-- A concrete server state used to evaluate the embedded runs: channel `c1`
holds one clip, nothing cached, nothing in flight. -/
def demoState : ServerState :=
  { clips := [("c1", [demoClip])],
    videos := [], generating := [], clipFiles := [], tempFiles := [] }

/-!
Interleaving model of concurrent `generateRecapVideo` calls for one key.

Node runs request handlers cooperatively: a handler is only preempted at
suspension points.  In `generateRecapVideo` the cache check (line 233), the
in-flight check (line 243) and the marking (line 259) are one synchronous
block with no `await` between them, so they form a single atomic step.
The generation body (selection, manifest, encoder) suspends, and its close
handler (lines 324-344) is again one synchronous block: it clears the
marker and, on exit code 0, leaves the output file on disk.  The waiter of
the poll branch (lines 245-257) re-runs its `setInterval` callback —
`!generatingVideos.has(videoId) && fs.existsSync(videoPath)` — as atomic
steps.  Two requests share a key only if they computed the same `videoId`,
which the claims take as given.
-/

/-- What a finished request handed its caller: the cache hit
`{id, cached: true}`, the generator's success value, the poll-waiter's
resolution `{id, cached: false}`, or the fixed failure value. -/
inductive Reply where
  | cachedTrue (id : String)
  | generated (id : String)
  | polled (id : String)
  | failed
  deriving DecidableEq, Repr

/-- The artifact a reply points its caller at, if any. -/
def Reply.artifactId : Reply → Option String
  | .cachedTrue i => some i
  | .generated i => some i
  | .polled i => some i
  | .failed => none

/-- The control point a request is at: before its synchronous
check-and-mark block, inside the generation body, inside the
`setInterval` poll loop, or finished with a reply. -/
inductive Phase where
  | start
  | working
  | polling
  | done (r : Reply)
  deriving DecidableEq, Repr

/-- The state shared by all requests for the key: the `videos/` directory,
the `generatingVideos` map (as the list of marked keys), and a counter of
generation passes (each spawns the encoder on the non-error path). -/
structure Shared where
  videos : List String
  generating : List String
  encodeCount : Nat
  deriving DecidableEq, Repr

/-- One atomic step of a single request for key `k`; `ok` is whether the
encoder run of this execution succeeds (exit code 0). -/
inductive TStep (k : String) (ok : Bool) : Phase → Shared → Phase → Shared → Prop
  | cacheHit {sh} : k ∈ sh.videos →
      TStep k ok Phase.start sh (Phase.done (Reply.cachedTrue k)) sh
  | enterPoll {sh} : k ∉ sh.videos → k ∈ sh.generating →
      TStep k ok Phase.start sh Phase.polling sh
  | checkAndMark {sh} : k ∉ sh.videos → k ∉ sh.generating →
      TStep k ok Phase.start sh Phase.working
        ⟨sh.videos, k :: sh.generating, sh.encodeCount + 1⟩
  | finishOk {sh} : ok = true →
      TStep k ok Phase.working sh (Phase.done (Reply.generated k))
        ⟨k :: sh.videos, sh.generating.erase k, sh.encodeCount⟩
  | finishFail {sh} : ok = false →
      TStep k ok Phase.working sh (Phase.done Reply.failed)
        ⟨sh.videos, sh.generating.erase k, sh.encodeCount⟩
  | pollMiss {sh} : k ∈ sh.generating ∨ k ∉ sh.videos →
      TStep k ok Phase.polling sh Phase.polling sh
  | pollHit {sh} : k ∉ sh.generating → k ∈ sh.videos →
      TStep k ok Phase.polling sh (Phase.done (Reply.polled k)) sh

/-- Joint state of two requests for the same key. -/
structure CoState where
  sh : Shared
  t1 : Phase
  t2 : Phase
  deriving DecidableEq, Repr

/-- Interleaving: either request takes its next atomic step. -/
inductive CoStep (k : String) (ok : Bool) : CoState → CoState → Prop
  | left {s p sh2} : TStep k ok s.t1 s.sh p sh2 → CoStep k ok s ⟨sh2, p, s.t2⟩
  | right {s p sh2} : TStep k ok s.t2 s.sh p sh2 → CoStep k ok s ⟨sh2, s.t1, p⟩

/-- Reachability in the interleaving model. -/
def Reach (k : String) (ok : Bool) : CoState → CoState → Prop :=
  Relation.ReflTransGen (CoStep k ok)

/-- The inductive invariant of the coordinator: a working request holds the
in-flight marker; never two working requests; and in an execution whose
encoder succeeds, at most one generation pass ever starts, a started pass
leaves either the marker or the artifact behind, and every finished request
points its caller at artifact `k`. -/
def CoInv (k : String) (ok : Bool) (s : CoState) : Prop :=
  ((s.t1 = Phase.working → k ∈ s.sh.generating) ∧
   (s.t2 = Phase.working → k ∈ s.sh.generating)) ∧
  ¬(s.t1 = Phase.working ∧ s.t2 = Phase.working) ∧
  (ok = true →
    s.sh.encodeCount ≤ 1 ∧
    (1 ≤ s.sh.encodeCount → k ∈ s.sh.generating ∨ k ∈ s.sh.videos) ∧
    (∀ r, s.t1 = Phase.done r → r.artifactId = some k) ∧
    (∀ r, s.t2 = Phase.done r → r.artifactId = some k))

/-- The state reached when a generation failed while a second request was
already polling: the failed request replied, the marker is gone, no file
was produced, and the waiter is still in its poll loop. -/
def pollDeadState : CoState :=
  ⟨⟨[], [], 1⟩, Phase.done Reply.failed, Phase.polling⟩

/-- Clip selection written from the spec's words (§4.1): cutoff is
`now − minutesLate·60000` ms, keep clips with `startTime < cutoff`, sort by
`startTime` descending (most recent first), take at most the first 5.
Stated separately from `selectRelevantClips` (which is read off the source)
so the two can be compared. -/
def selectSpec (streamClips : List Clip) (minutesLate now : Int) : List Clip :=
  ((List.insertionSort clipDescOrder
    (streamClips.filter (fun c => c.startTime < now - minutesLate * 60000))).take 5)

/-- Demo clips for concrete evaluations. -/
def demoClipA : Clip := ⟨1, "g", "t", 100, 200, 0, false⟩

/-- Demo clip newer than `demoClipA`. -/
def demoClipB : Clip := ⟨2, "g", "t", 300, 400, 0, false⟩

/-- Demo clip older than `demoClipA`. -/
def demoClipC : Clip := ⟨3, "g", "t", 50, 60, 0, false⟩

/-- The demo clip sequence. -/
def demoClips : List Clip := [demoClipA, demoClipB, demoClipC]

/-- A successful run against `demoState` at entry instant 1000000. -/
def firstRun : GenOutcome := generateRecapVideo demoState "c1" 5 1000000 1000000 0

/-- The same request one millisecond later, against the state `firstRun`
left behind (its artifact is cached). -/
def secondRun : GenOutcome := generateRecapVideo firstRun.state "c1" 5 1000001 1000001 0

/-- A run whose encoder exits with code 1. -/
def failRunOne : GenOutcome := generateRecapVideo demoState "c1" 5 1000000 1000000 1

/-- A run whose encoder exits with code 2. -/
def failRunTwo : GenOutcome := generateRecapVideo demoState "c1" 5 1000000 1000000 2

/-- Two artifacts both 25 hours old at sweep time 200000000. -/
def sweepDemoFiles : List FileRecord := [⟨"a", 110000000⟩, ⟨"b", 110000000⟩]

/-- A deletion-failure oracle that makes deleting `a` throw. -/
def sweepDemoFails : String → Bool := fun n => n == "a"

/-- Claim C4: for every clip sequence, `minutesLate`, and `now`, the selected
set is exactly the clips with `startTime` strictly below
`now − minutesLate·60000` ms, sorted by `startTime` descending, truncated to
at most the first 5; selection is a pure function of these inputs, hence
deterministic. -/
theorem selection_exact (streamClips : List Clip) (minutesLate now : Int) :
    selectRelevantClips streamClips minutesLate now =
      selectSpec streamClips minutesLate now ∧
    (∀ c ∈ selectRelevantClips streamClips minutesLate now,
        c ∈ streamClips ∧ c.startTime < now - minutesLate * 60000) ∧
    (selectRelevantClips streamClips minutesLate now).Pairwise
      (fun a b => b.startTime ≤ a.startTime) ∧
    (selectRelevantClips streamClips minutesLate now).length ≤ 5 := by
  refine ⟨rfl, ?_, ?_, ?_⟩
  · intro c hc
    have hms := List.mem_of_mem_take hc
    have hf : c ∈ streamClips.filter
        (fun c => decide (c.startTime < cutoffTime now minutesLate)) :=
      (List.perm_insertionSort clipDescOrder _).mem_iff.mp hms
    rcases List.mem_filter.mp hf with ⟨hmem, hlt⟩
    exact ⟨hmem, by simpa [cutoffTime] using of_decide_eq_true hlt⟩
  · have hp := List.sorted_insertionSort clipDescOrder
      (streamClips.filter (fun c => c.startTime < cutoffTime now minutesLate))
    exact List.Pairwise.sublist (List.take_sublist 5 _) hp
  · exact List.length_take_le 5 _

/-- Witness for C4 at a concrete input: the clip at startTime 100 is selected
for `minutesLate = 0`, `now = 250`, and indeed lies before the cutoff. -/
theorem selection_exact_witness :
    demoClipA ∈ demoClips ∧ demoClipA.startTime < 250 - 0 * 60000 :=
  (selection_exact demoClips 0 250).2.1 demoClipA (by decide)

/-- Claim C3 fails on the code: the `catch` handler deletes the key
`channelId_minutesLatemin`, which differs from every marker key
`channelId_minutesLatemin_ts` actually set, so a generation that marked its
key and then threw leaves the in-flight marker in place on that exit path. -/
theorem inflight_marker_survives_catch :
    (∀ channelId minutesLate ts,
        videoId channelId minutesLate ts ≠ recapBaseKey channelId minutesLate) ∧
    (∀ (st : ServerState) (channelId : String) (minutesLate ts : Int),
        videoId channelId minutesLate ts ∈
          (exceptionCatchCleanup
            { st with generating := videoId channelId minutesLate ts :: st.generating }
            channelId minutesLate).generating) ∧
    (exceptionCatchCleanup
        { demoState with generating := [videoId "c1" 5 1000000] } "c1" 5).generating =
      [videoId "c1" 5 1000000] := by
  have hone : ("_" : String).length = 1 := rfl
  have hne : ∀ channelId minutesLate ts,
      videoId channelId minutesLate ts ≠ recapBaseKey channelId minutesLate := by
    intro c m t h
    have hl := congrArg String.length h
    simp only [videoId, String.length_append, hone] at hl
    omega
  refine ⟨hne, ?_, by decide⟩
  intro st c m t
  simp only [exceptionCatchCleanup]
  exact (List.mem_erase_of_ne (hne c m t)).mpr (List.mem_cons_self _ _)

/-- Witness for C3's failing input: the marker key set at instant 1000000
differs from the key the catch handler deletes. -/
theorem inflight_marker_survives_catch_witness :
    videoId "c1" 5 1000000 ≠ recapBaseKey "c1" 5 :=
  inflight_marker_survives_catch.1 "c1" 5 1000000

/-- Claim C1 fails on the code: the lookup key is
`channelId_minutesLatemin_Date.now()` — it embeds the exact generation
instant.  Concretely, a request at instant 1000000 produces and caches an
artifact, and the identical request one millisecond later computes a
different key, misses the cache, and spawns the encoder again. -/
theorem cacheKey_embeds_instant :
    (∀ channelId minutesLate ts,
        videoId channelId minutesLate ts =
          recapBaseKey channelId minutesLate ++ "_" ++ toString ts) ∧
    videoId "c1" 5 1000000 ≠ videoId "c1" 5 1000001 ∧
    firstRun.result = RecapResult.videoReady (videoId "c1" 5 1000000) 60 ∧
    videoId "c1" 5 1000000 ∈ firstRun.state.videos ∧
    secondRun.encoderInvoked = true ∧
    secondRun.result = RecapResult.videoReady (videoId "c1" 5 1000001) 60 :=
  ⟨fun _ _ _ => rfl, by decide, by decide, by decide, by decide, by decide⟩

/-- Witness for C1: the key shape at a concrete input. -/
theorem cacheKey_embeds_instant_witness :
    videoId "c1" 5 1000000 = recapBaseKey "c1" 5 ++ "_" ++ toString (1000000 : Int) :=
  cacheKey_embeds_instant.1 "c1" 5 1000000

/-- Claim C9 fails on the code: with two artifacts both 25 hours old and the
first deletion throwing, the sweep deletes nothing and never attempts the
second artifact, because the single try/catch wraps the whole `forEach`. -/
theorem sweep_abort_counterexample :
    ((200000000 : Int) - (110000000 : Int) > maxVideoAgeMs) ∧
    cleanupSweep 200000000 sweepDemoFails sweepDemoFiles = ⟨["a"], []⟩ ∧
    "b" ∉ (cleanupSweep 200000000 sweepDemoFails sweepDemoFiles).attempted := by
  decide

/-- Claim C9 as amended: a sweep in which no deletion errors occur deletes
exactly the artifacts older than 24 hours and preserves all younger ones;
but an error while deleting one eligible artifact aborts the remainder of
the sweep (the error is caught and logged at sweep level), so later
artifacts are not attempted. -/
theorem sweep_behavior_amended :
    (∀ (now : Int) (unlinkFails : String → Bool) (files : List FileRecord),
        (∀ f ∈ files, unlinkFails f.name = false) →
        cleanupSweep now unlinkFails files =
          ⟨(files.filter (fun f => now - f.mtimeMs > maxVideoAgeMs)).map FileRecord.name,
           (files.filter (fun f => now - f.mtimeMs > maxVideoAgeMs)).map FileRecord.name⟩) ∧
    (∀ (now : Int) (unlinkFails : String → Bool) (f : FileRecord) (rest : List FileRecord),
        now - f.mtimeMs > maxVideoAgeMs → unlinkFails f.name = true →
        cleanupSweep now unlinkFails (f :: rest) = ⟨[f.name], []⟩) := by
  constructor
  · intro now unlinkFails files hnf
    induction files with
    | nil => simp [cleanupSweep]
    | cons f rest ih =>
      have hf := hnf f (List.mem_cons_self f rest)
      have hrest := ih (fun g hg => hnf g (List.mem_cons_of_mem f hg))
      by_cases hold : now - f.mtimeMs > maxVideoAgeMs
      · simp [cleanupSweep, hold, hf, hrest]
      · simp [cleanupSweep, hold, hrest]
  · intro now unlinkFails f rest h1 h2
    simp [cleanupSweep, h1, h2]

/-- Witness for C9's amended claim: an error-free sweep over the demo files
deletes both 25-hour-old artifacts. -/
theorem sweep_behavior_amended_witness :
    (∀ f ∈ sweepDemoFiles, (fun _ => false : String → Bool) f.name = false) ∧
    cleanupSweep 200000000 (fun _ => false) sweepDemoFiles = ⟨["a", "b"], ["a", "b"]⟩ := by
  refine ⟨fun f _ => rfl, ?_⟩
  have h := sweep_behavior_amended.1 200000000 (fun _ => false) sweepDemoFiles
    (fun f _ => rfl)
  rw [h]
  decide

/-- Per-clip id store characterization of `resolveClips`: an existing
placeholder is never overwritten; a missing one is synthesized with the
currently requested duration. -/
lemma resolveClips_store_lookup (ids : List Nat) (store : List (Nat × Nat)) (dur id : Nat) :
    (resolveClips store ids dur).1.lookup id =
      if id ∈ ids ∧ store.lookup id = none then some dur else store.lookup id := by
  induction ids generalizing store with
  | nil => simp [resolveClips]
  | cons i rest ih =>
    simp only [resolveClips]
    by_cases hsome : (store.lookup i).isSome = true
    · rw [if_pos hsome, ih store]
      by_cases hid : id = i
      · subst hid
        have hlk : store.lookup id ≠ none := by
          intro hnone
          rw [hnone] at hsome
          simp at hsome
        rw [if_neg (fun h => hlk h.2), if_neg (fun h => hlk h.2)]
      · refine if_congr ?_ rfl rfl
        simp [List.mem_cons, hid]
    · rw [if_neg hsome, ih ((i, dur) :: store)]
      have hnone : store.lookup i = none := by
        cases h : store.lookup i with
        | none => rfl
        | some v => rw [h] at hsome; simp at hsome
      by_cases hid : id = i
      · subst hid
        have h1 : List.lookup id ((id, dur) :: store) = some dur := by
          simp [List.lookup]
        rw [h1, if_neg (fun h => Option.noConfusion h.2),
          if_pos ⟨List.mem_cons_self id rest, hnone⟩]
      · have hb : (id == i) = false := beq_eq_false_iff_ne.mpr hid
        have h1 : List.lookup id ((i, dur) :: store) = store.lookup id := by
          simp [List.lookup, hb]
        rw [h1]
        refine if_congr ?_ rfl rfl
        simp [List.mem_cons, hid]

/-- The manifest lines `resolveClips` emits: one `(id, requested duration)`
entry per selected clip, independent of what the store already holds. -/
lemma resolveClips_manifest (ids : List Nat) (store : List (Nat × Nat)) (dur : Nat) :
    (resolveClips store ids dur).2 = ids.map (fun i => (i, dur)) := by
  induction ids generalizing store with
  | nil => simp [resolveClips]
  | cons i rest ih => simp [resolveClips, ih]

/-- Claim C10: a placeholder file is synthesized at most once, with the
per-clip duration of the first generation needing it; a later generation
referencing the same clip id reuses that file unchanged while declaring its
own duration in the manifest — so the declared duration can differ from the
file's actual length. -/
theorem placeholder_synthesized_once (store : List (Nat × Nat)) (ids1 : List Nat)
    (d1 : Nat) (ids2 : List Nat) (d2 : Nat) (id : Nat) :
    ((resolveClips store ids1 d1).1.lookup id =
      if id ∈ ids1 ∧ store.lookup id = none then some d1 else store.lookup id) ∧
    (resolveClips store ids1 d1).2 = ids1.map (fun i => (i, d1)) ∧
    (id ∈ ids1 → store.lookup id = none → id ∈ ids2 →
      (resolveClips (resolveClips store ids1 d1).1 ids2 d2).1.lookup id = some d1 ∧
      (id, d2) ∈ (resolveClips (resolveClips store ids1 d1).1 ids2 d2).2) := by
  refine ⟨resolveClips_store_lookup ids1 store d1 id,
    resolveClips_manifest ids1 store d1, ?_⟩
  intro h1 h2 h3
  have hfst : (resolveClips store ids1 d1).1.lookup id = some d1 := by
    rw [resolveClips_store_lookup]
    simp [h1, h2]
  constructor
  · rw [resolveClips_store_lookup]
    simp [hfst]
  · rw [resolveClips_manifest]
    exact List.mem_map.mpr ⟨id, h3, rfl⟩

/-- Witness for C10: clip 7 is synthesized at 60 s by the first generation;
a second generation at 30 s per clip reuses the 60 s file while its manifest
declares 30 s. -/
theorem placeholder_synthesized_once_witness :
    (resolveClips (resolveClips [] [7] 60).1 [7] 30).1.lookup 7 = some 60 ∧
    (7, 30) ∈ (resolveClips (resolveClips [] [7] 60).1 [7] 30).2 :=
  (placeholder_synthesized_once [] [7] 60 [7] 30 7).2.2 (by decide) (by decide)
    (by decide)

/-- Evaluation of a full generation pass: when the key is neither cached nor
in flight and the selection is non-empty, the run spawns the encoder and
resolves according to the exit code; the marker and the temp list file are
gone either way. -/
lemma generateRecapVideo_run (st : ServerState) (channelId : String)
    (minutesLate tsEntry tsSelect : Int) (exitCode : Nat)
    (hv : videoId channelId minutesLate tsEntry ∉ st.videos)
    (hg : videoId channelId minutesLate tsEntry ∉ st.generating)
    (hs : ¬(selectRelevantClips ((List.lookup channelId st.clips).getD [])
        minutesLate tsSelect).isEmpty = true) :
    generateRecapVideo st channelId minutesLate tsEntry tsSelect exitCode =
      (if exitCode = 0 then
        ⟨RecapResult.videoReady (videoId channelId minutesLate tsEntry)
          (durationPerClipSeconds
              (selectRelevantClips ((List.lookup channelId st.clips).getD [])
                minutesLate tsSelect).length *
            (selectRelevantClips ((List.lookup channelId st.clips).getD [])
              minutesLate tsSelect).length),
         ⟨st.clips, videoId channelId minutesLate tsEntry :: st.videos, st.generating,
          (resolveClips st.clipFiles
            ((selectRelevantClips ((List.lookup channelId st.clips).getD [])
              minutesLate tsSelect).map Clip.id)
            (durationPerClipSeconds
              (selectRelevantClips ((List.lookup channelId st.clips).getD [])
                minutesLate tsSelect).length)).1,
          st.tempFiles⟩, true,
         (resolveClips st.clipFiles
            ((selectRelevantClips ((List.lookup channelId st.clips).getD [])
              minutesLate tsSelect).map Clip.id)
            (durationPerClipSeconds
              (selectRelevantClips ((List.lookup channelId st.clips).getD [])
                minutesLate tsSelect).length)).2⟩
      else
        ⟨RecapResult.encodingFailed,
         ⟨st.clips, st.videos, st.generating,
          (resolveClips st.clipFiles
            ((selectRelevantClips ((List.lookup channelId st.clips).getD [])
              minutesLate tsSelect).map Clip.id)
            (durationPerClipSeconds
              (selectRelevantClips ((List.lookup channelId st.clips).getD [])
                minutesLate tsSelect).length)).1,
          st.tempFiles⟩, true,
         (resolveClips st.clipFiles
            ((selectRelevantClips ((List.lookup channelId st.clips).getD [])
              minutesLate tsSelect).map Clip.id)
            (durationPerClipSeconds
              (selectRelevantClips ((List.lookup channelId st.clips).getD [])
                minutesLate tsSelect).length)).2⟩) := by
  have hcs : ¬((List.lookup channelId st.clips).getD []).isEmpty = true := by
    intro hemp
    rw [List.isEmpty_iff] at hemp
    rw [hemp] at hs
    exact hs rfl
  simp only [generateRecapVideo]
  rw [if_neg hv, if_neg hg, if_neg hcs, if_neg hs]
  by_cases he : exitCode = 0
  · rw [if_pos he, if_pos he]
    simp [List.erase_cons_head]
  · rw [if_neg he, if_neg he]
    simp [List.erase_cons_head]

/-- Claim C5: with the key neither cached nor in flight, an empty stored
clip set yields the `No clips available` error and a non-empty one whose
post-cutoff selection is empty yields the distinct `No relevant clips`
error; in both cases the encoder is not spawned, no artifact is recorded,
and the in-flight marker is not left behind. -/
theorem selection_error_results (st : ServerState) (channelId : String)
    (minutesLate tsEntry tsSelect : Int) (exitCode : Nat)
    (hv : videoId channelId minutesLate tsEntry ∉ st.videos)
    (hg : videoId channelId minutesLate tsEntry ∉ st.generating) :
    ((List.lookup channelId st.clips).getD [] = [] →
      (generateRecapVideo st channelId minutesLate tsEntry tsSelect exitCode).result =
          RecapResult.noClips ∧
      (generateRecapVideo st channelId minutesLate tsEntry tsSelect exitCode).encoderInvoked
          = false ∧
      (generateRecapVideo st channelId minutesLate tsEntry tsSelect exitCode).state.videos
          = st.videos ∧
      (generateRecapVideo st channelId minutesLate tsEntry tsSelect exitCode).state.generating
          = st.generating) ∧
    ((List.lookup channelId st.clips).getD [] ≠ [] →
      selectRelevantClips ((List.lookup channelId st.clips).getD [])
        minutesLate tsSelect = [] →
      (generateRecapVideo st channelId minutesLate tsEntry tsSelect exitCode).result =
          RecapResult.noRelevantClips ∧
      (generateRecapVideo st channelId minutesLate tsEntry tsSelect exitCode).encoderInvoked
          = false ∧
      (generateRecapVideo st channelId minutesLate tsEntry tsSelect exitCode).state.videos
          = st.videos ∧
      (generateRecapVideo st channelId minutesLate tsEntry tsSelect exitCode).state.generating
          = st.generating) ∧
    RecapResult.noClips ≠ RecapResult.noRelevantClips := by
  refine ⟨?_, ?_, by decide⟩
  · intro hempty
    have hcs : ((List.lookup channelId st.clips).getD []).isEmpty = true :=
      List.isEmpty_iff.mpr hempty
    simp only [generateRecapVideo]
    rw [if_neg hv, if_neg hg, if_pos hcs]
    refine ⟨rfl, rfl, rfl, ?_⟩
    exact List.erase_cons_head _ _
  · intro hne hsel
    have hcs : ¬((List.lookup channelId st.clips).getD []).isEmpty = true := by
      simpa [List.isEmpty_iff] using hne
    have hselE : (selectRelevantClips ((List.lookup channelId st.clips).getD [])
        minutesLate tsSelect).isEmpty = true := List.isEmpty_iff.mpr hsel
    simp only [generateRecapVideo]
    rw [if_neg hv, if_neg hg, if_neg hcs, if_pos hselE]
    refine ⟨rfl, rfl, rfl, ?_⟩
    exact List.erase_cons_head _ _

/-- Witness for C5: a request for channel `c2` (no stored clips) against the
demo state returns `No clips available` without spawning the encoder. -/
theorem selection_error_results_witness :
    (generateRecapVideo demoState "c2" 0 5 5 0).result = RecapResult.noClips ∧
    (generateRecapVideo demoState "c2" 0 5 5 0).encoderInvoked = false ∧
    (generateRecapVideo demoState "c2" 0 5 5 0).state.videos = demoState.videos ∧
    (generateRecapVideo demoState "c2" 0 5 5 0).state.generating = demoState.generating :=
  (selection_error_results demoState "c2" 0 5 5 0 (by decide) (by decide)).1 (by decide)

/-- The even split of the 60-second budget never exceeds 60 seconds for 1
to 5 clips. -/
lemma budget_le_sixty (n : Nat) (h1 : 1 ≤ n) (h5 : n ≤ 5) :
    n * durationPerClipSeconds n ≤ 60 := by
  interval_cases n <;> decide

/-- Claim C6: every successful generation selected between 1 and 5 clips,
the per-clip duration is the double floor `(60000 / n) / 1000` seconds, the
reported total duration is `n` times the per-clip duration (not recomputed
after flooring), and it never exceeds the 60-second cap. -/
theorem duration_budget (st : ServerState) (channelId : String)
    (minutesLate tsEntry tsSelect : Int) (exitCode : Nat) (v : String) (d : Nat)
    (h : (generateRecapVideo st channelId minutesLate tsEntry tsSelect exitCode).result =
        RecapResult.videoReady v d) :
    1 ≤ (selectRelevantClips ((List.lookup channelId st.clips).getD [])
        minutesLate tsSelect).length ∧
    (selectRelevantClips ((List.lookup channelId st.clips).getD [])
        minutesLate tsSelect).length ≤ 5 ∧
    durationPerClipSeconds
        (selectRelevantClips ((List.lookup channelId st.clips).getD [])
          minutesLate tsSelect).length =
      60000 / (selectRelevantClips ((List.lookup channelId st.clips).getD [])
          minutesLate tsSelect).length / 1000 ∧
    d = (selectRelevantClips ((List.lookup channelId st.clips).getD [])
          minutesLate tsSelect).length *
        durationPerClipSeconds
          (selectRelevantClips ((List.lookup channelId st.clips).getD [])
            minutesLate tsSelect).length ∧
    d ≤ 60 := by
  simp only [generateRecapVideo] at h
  by_cases hv : videoId channelId minutesLate tsEntry ∈ st.videos
  · rw [if_pos hv] at h
    simp at h
  rw [if_neg hv] at h
  by_cases hg : videoId channelId minutesLate tsEntry ∈ st.generating
  · rw [if_pos hg] at h
    simp at h
  rw [if_neg hg] at h
  by_cases hcs : ((List.lookup channelId st.clips).getD []).isEmpty = true
  · rw [if_pos hcs] at h
    simp at h
  rw [if_neg hcs] at h
  by_cases hsel : (selectRelevantClips ((List.lookup channelId st.clips).getD [])
      minutesLate tsSelect).isEmpty = true
  · rw [if_pos hsel] at h
    simp at h
  rw [if_neg hsel] at h
  by_cases he : exitCode = 0
  · rw [if_pos he] at h
    simp only [] at h
    rcases h with ⟨⟩
    have h1 : 1 ≤ (selectRelevantClips ((List.lookup channelId st.clips).getD [])
        minutesLate tsSelect).length := by
      have hne : selectRelevantClips ((List.lookup channelId st.clips).getD [])
          minutesLate tsSelect ≠ [] := by
        intro hh
        rw [hh] at hsel
        exact hsel rfl
      exact List.length_pos.mpr hne
    have h5 : (selectRelevantClips ((List.lookup channelId st.clips).getD [])
        minutesLate tsSelect).length ≤ 5 := List.length_take_le 5 _
    refine ⟨h1, h5, rfl, Nat.mul_comm _ _, ?_⟩
    rw [Nat.mul_comm]
    exact budget_le_sixty _ h1 h5
  · rw [if_neg he] at h
    simp at h

/-- Witness for C6: the successful demo run reports 1 selected clip and a
60-second total. -/
theorem duration_budget_witness :
    1 ≤ (selectRelevantClips ((List.lookup "c1" demoState.clips).getD [])
        5 1000000).length ∧
    (selectRelevantClips ((List.lookup "c1" demoState.clips).getD [])
        5 1000000).length ≤ 5 ∧
    durationPerClipSeconds
        (selectRelevantClips ((List.lookup "c1" demoState.clips).getD [])
          5 1000000).length =
      60000 / (selectRelevantClips ((List.lookup "c1" demoState.clips).getD [])
          5 1000000).length / 1000 ∧
    60 = (selectRelevantClips ((List.lookup "c1" demoState.clips).getD [])
          5 1000000).length *
        durationPerClipSeconds
          (selectRelevantClips ((List.lookup "c1" demoState.clips).getD [])
            5 1000000).length ∧
    (60 : Nat) ≤ 60 :=
  duration_budget demoState "c1" 5 1000000 1000000 0 (videoId "c1" 5 1000000) 60
    (by decide)

/-- Claim C8 fails as stated: the nonzero-exit result is the fixed value
`{error: 'Failed to generate video'}` for every exit code, so it cannot
carry the exit code — runs with exit codes 1 and 2 resolve identically. -/
theorem encoding_failure_counterexample :
    failRunOne.result = RecapResult.encodingFailed ∧
    failRunTwo.result = RecapResult.encodingFailed ∧
    failRunOne.result = failRunTwo.result ∧ (1 : Nat) ≠ 2 := by
  decide

/-- Claim C8 as amended: on a nonzero encoder exit the result is the fixed
encoding-failure error (not carrying the exit code), no artifact is
recorded, the marker is cleared and the temp list file is removed just as
on success, and re-running the same key against the resulting state spawns
the encoder again and can succeed. -/
theorem encoding_failure_amended (st : ServerState) (channelId : String)
    (minutesLate tsEntry tsSelect : Int) (exitCode : Nat)
    (hv : videoId channelId minutesLate tsEntry ∉ st.videos)
    (hg : videoId channelId minutesLate tsEntry ∉ st.generating)
    (hs : ¬(selectRelevantClips ((List.lookup channelId st.clips).getD [])
        minutesLate tsSelect).isEmpty = true)
    (he : exitCode ≠ 0) :
    (generateRecapVideo st channelId minutesLate tsEntry tsSelect exitCode).result =
        RecapResult.encodingFailed ∧
    (generateRecapVideo st channelId minutesLate tsEntry tsSelect exitCode).state.videos
        = st.videos ∧
    (generateRecapVideo st channelId minutesLate tsEntry tsSelect exitCode).state.generating
        = st.generating ∧
    (generateRecapVideo st channelId minutesLate tsEntry tsSelect exitCode).state.tempFiles
        = st.tempFiles ∧
    (generateRecapVideo st channelId minutesLate tsEntry tsSelect exitCode).encoderInvoked
        = true ∧
    (generateRecapVideo
        (generateRecapVideo st channelId minutesLate tsEntry tsSelect exitCode).state
        channelId minutesLate tsEntry tsSelect 0).result =
      RecapResult.videoReady (videoId channelId minutesLate tsEntry)
        (durationPerClipSeconds
            (selectRelevantClips ((List.lookup channelId st.clips).getD [])
              minutesLate tsSelect).length *
          (selectRelevantClips ((List.lookup channelId st.clips).getD [])
            minutesLate tsSelect).length) ∧
    (generateRecapVideo
        (generateRecapVideo st channelId minutesLate tsEntry tsSelect exitCode).state
        channelId minutesLate tsEntry tsSelect 0).encoderInvoked = true := by
  have hrun := generateRecapVideo_run st channelId minutesLate tsEntry tsSelect
    exitCode hv hg hs
  rw [if_neg he] at hrun
  have hretry := generateRecapVideo_run
    (generateRecapVideo st channelId minutesLate tsEntry tsSelect exitCode).state
    channelId minutesLate tsEntry tsSelect 0 (by rw [hrun]; exact hv)
    (by rw [hrun]; exact hg) (by rw [hrun]; exact hs)
  rw [if_pos rfl] at hretry
  rw [hrun] at hretry ⊢
  exact ⟨rfl, rfl, rfl, rfl, rfl, by rw [hretry], by rw [hretry]⟩

/-- Witness for C8's amended claim: the demo run with exit code 1 fails
without recording an artifact, and the retry with exit code 0 succeeds. -/
theorem encoding_failure_amended_witness :
    failRunOne.result = RecapResult.encodingFailed ∧
    failRunOne.state.videos = demoState.videos ∧
    failRunOne.state.generating = demoState.generating ∧
    failRunOne.state.tempFiles = demoState.tempFiles ∧
    failRunOne.encoderInvoked = true ∧
    (generateRecapVideo failRunOne.state "c1" 5 1000000 1000000 0).result =
      RecapResult.videoReady (videoId "c1" 5 1000000)
        (durationPerClipSeconds
            (selectRelevantClips ((List.lookup "c1" demoState.clips).getD [])
              5 1000000).length *
          (selectRelevantClips ((List.lookup "c1" demoState.clips).getD [])
            5 1000000).length) ∧
    (generateRecapVideo failRunOne.state "c1" 5 1000000 1000000 0).encoderInvoked
        = true :=
  encoding_failure_amended demoState "c1" 5 1000000 1000000 1 (by decide)
    (by decide) (by decide) (by decide)

/-- The coordinator invariant is symmetric in the two requests. -/
lemma coInv_comm {k : String} {ok : Bool} {sh : Shared} {a b : Phase}
    (h : CoInv k ok ⟨sh, a, b⟩) : CoInv k ok ⟨sh, b, a⟩ := by
  obtain ⟨⟨h1, h2⟩, h3, h4⟩ := h
  refine ⟨⟨h2, h1⟩, fun hh => h3 ⟨hh.2, hh.1⟩, fun hok => ?_⟩
  obtain ⟨c1, c2, c3, c4⟩ := h4 hok
  exact ⟨c1, c2, c4, c3⟩

/-- One atomic step by the first request preserves the coordinator
invariant. -/
lemma coInv_tstep_left {k : String} {ok : Bool} {a b a2 : Phase} {sh sh2 : Shared}
    (hstep : TStep k ok a sh a2 sh2) (hinv : CoInv k ok ⟨sh, a, b⟩) :
    CoInv k ok ⟨sh2, a2, b⟩ := by
  obtain ⟨⟨hm1, hm2⟩, hmx, hsucc⟩ := hinv
  cases hstep with
  | cacheHit hmem =>
      refine ⟨⟨fun h => Phase.noConfusion h, hm2⟩,
        fun hh => Phase.noConfusion hh.1, fun hok => ?_⟩
      obtain ⟨c1, c2, _, c4⟩ := hsucc hok
      refine ⟨c1, c2, fun r hr => ?_, c4⟩
      rw [← Phase.done.inj hr]
      rfl
  | enterPoll hnv hgen =>
      refine ⟨⟨fun h => Phase.noConfusion h, hm2⟩,
        fun hh => Phase.noConfusion hh.1, fun hok => ?_⟩
      obtain ⟨c1, c2, _, c4⟩ := hsucc hok
      exact ⟨c1, c2, fun r hr => Phase.noConfusion hr, c4⟩
  | checkAndMark hnv hgen =>
      refine ⟨⟨fun _ => List.mem_cons_self k _, fun _ => List.mem_cons_self k _⟩,
        fun hh => hgen (hm2 hh.2), fun hok => ?_⟩
      obtain ⟨c1, c2, _, c4⟩ := hsucc hok
      have hc0 : sh.encodeCount = 0 := by
        rcases Nat.eq_zero_or_pos sh.encodeCount with h0 | hpos
        · exact h0
        · rcases c2 hpos with hh | hh
          · exact absurd hh hgen
          · exact absurd hh hnv
      refine ⟨?_, fun _ => Or.inl (List.mem_cons_self k _),
        fun r hr => Phase.noConfusion hr, c4⟩
      show sh.encodeCount + 1 ≤ 1
      omega
  | finishOk hok2 =>
      refine ⟨⟨fun h => Phase.noConfusion h, fun hb => absurd ⟨rfl, hb⟩ hmx⟩,
        fun hh => Phase.noConfusion hh.1, fun hok => ?_⟩
      obtain ⟨c1, _, _, c4⟩ := hsucc hok
      refine ⟨c1, fun _ => Or.inr (List.mem_cons_self k _), fun r hr => ?_, c4⟩
      rw [← Phase.done.inj hr]
      rfl
  | finishFail hok2 =>
      refine ⟨⟨fun h => Phase.noConfusion h, fun hb => absurd ⟨rfl, hb⟩ hmx⟩,
        fun hh => Phase.noConfusion hh.1, fun hok => ?_⟩
      exact Bool.noConfusion (hok2.symm.trans hok)
  | pollMiss hcond =>
      refine ⟨⟨fun h => Phase.noConfusion h, hm2⟩,
        fun hh => Phase.noConfusion hh.1, fun hok => ?_⟩
      obtain ⟨c1, c2, _, c4⟩ := hsucc hok
      exact ⟨c1, c2, fun r hr => Phase.noConfusion hr, c4⟩
  | pollHit hng hmem =>
      refine ⟨⟨fun h => Phase.noConfusion h, hm2⟩,
        fun hh => Phase.noConfusion hh.1, fun hok => ?_⟩
      obtain ⟨c1, c2, _, c4⟩ := hsucc hok
      refine ⟨c1, c2, fun r hr => ?_, c4⟩
      rw [← Phase.done.inj hr]
      rfl

/-- Every interleaved step preserves the coordinator invariant. -/
lemma coInv_step {k : String} {ok : Bool} {s s2 : CoState}
    (hstep : CoStep k ok s s2) (hinv : CoInv k ok s) : CoInv k ok s2 := by
  cases hstep with
  | left h => exact coInv_tstep_left h hinv
  | right h => exact coInv_comm (coInv_tstep_left h (coInv_comm hinv))

/-- The coordinator invariant holds in every reachable state. -/
lemma coInv_reach {k : String} {ok : Bool} {s s2 : CoState}
    (hinv : CoInv k ok s) (h : Reach k ok s s2) : CoInv k ok s2 := by
  induction h with
  | refl => exact hinv
  | tail hab hbc ih => exact coInv_step hbc ih

/-- The invariant holds initially, for both requests at their check. -/
lemma coInv_init (k : String) (ok : Bool) (vids gen : List String) :
    CoInv k ok ⟨⟨vids, gen, 0⟩, Phase.start, Phase.start⟩ :=
  ⟨⟨fun h => Phase.noConfusion h, fun h => Phase.noConfusion h⟩,
   fun hh => Phase.noConfusion hh.1,
   fun _ => ⟨Nat.zero_le 1, fun h => absurd h (Nat.not_succ_le_zero 0),
     fun _ hr => Phase.noConfusion hr, fun _ hr => Phase.noConfusion hr⟩⟩

/-- Claim C2: for two requests with the identical key, the synchronous
check-and-mark block is one atomic step, so no interleaving ever has both
requests inside the generation body; and in an execution whose encoder
succeeds, at most one generation pass (hence at most one encoder spawn)
occurs and every finished caller is pointed at the same artifact `k`. -/
theorem concurrent_requests_single_encode (k : String) (ok : Bool)
    (vids gen : List String) (s : CoState)
    (h : Reach k ok ⟨⟨vids, gen, 0⟩, Phase.start, Phase.start⟩ s) :
    ¬(s.t1 = Phase.working ∧ s.t2 = Phase.working) ∧
    (ok = true →
      s.sh.encodeCount ≤ 1 ∧
      (∀ r1 r2, s.t1 = Phase.done r1 → s.t2 = Phase.done r2 →
        r1.artifactId = some k ∧ r2.artifactId = some k)) := by
  obtain ⟨_, hmx, hsucc⟩ := coInv_reach (coInv_init k ok vids gen) h
  refine ⟨hmx, fun hok => ?_⟩
  obtain ⟨c1, _, c3, c4⟩ := hsucc hok
  exact ⟨c1, fun r1 r2 h1 h2 => ⟨c3 r1 h1, c4 r2 h2⟩⟩

/-- Witness for C2 at the initial state of a concrete key. -/
theorem concurrent_requests_single_encode_witness :
    ¬((⟨⟨[], [], 0⟩, Phase.start, Phase.start⟩ : CoState).t1 = Phase.working ∧
      (⟨⟨[], [], 0⟩, Phase.start, Phase.start⟩ : CoState).t2 = Phase.working) ∧
    (true = true →
      (⟨⟨[], [], 0⟩, Phase.start, Phase.start⟩ : CoState).sh.encodeCount ≤ 1 ∧
      (∀ r1 r2,
        (⟨⟨[], [], 0⟩, Phase.start, Phase.start⟩ : CoState).t1 = Phase.done r1 →
        (⟨⟨[], [], 0⟩, Phase.start, Phase.start⟩ : CoState).t2 = Phase.done r2 →
        r1.artifactId = some "c1_0min_7" ∧ r2.artifactId = some "c1_0min_7")) :=
  concurrent_requests_single_encode "c1_0min_7" true [] [] _
    Relation.ReflTransGen.refl

/-- Claim C7 fails on the code: a waiter sits in an unbounded `setInterval`
loop whose resolve condition reads the filesystem, and there is no timeout.
The dead state — generation failed while a second request polls — is
reachable, and from it the waiter polls forever: in every state reachable
from it the waiter is still `polling` (it never resolves, and no `Timeout`
reply exists anywhere in the model). -/
theorem waiter_never_resolves (k : String) :
    Reach k false ⟨⟨[], [], 0⟩, Phase.start, Phase.start⟩ pollDeadState ∧
    (∀ s, Reach k false pollDeadState s →
        s.t2 = Phase.polling ∧ s.sh.videos = []) := by
  constructor
  · have h1 : CoStep k false ⟨⟨[], [], 0⟩, Phase.start, Phase.start⟩
        ⟨⟨[], [k], 1⟩, Phase.working, Phase.start⟩ :=
      CoStep.left (TStep.checkAndMark (List.not_mem_nil k) (List.not_mem_nil k))
    have h2 : CoStep k false ⟨⟨[], [k], 1⟩, Phase.working, Phase.start⟩
        ⟨⟨[], [k], 1⟩, Phase.working, Phase.polling⟩ :=
      CoStep.right (TStep.enterPoll (List.not_mem_nil k) (List.mem_cons_self k []))
    have h3 : CoStep k false ⟨⟨[], [k], 1⟩, Phase.working, Phase.polling⟩
        ⟨⟨[], ([k]).erase k, 1⟩, Phase.done Reply.failed, Phase.polling⟩ :=
      CoStep.left (TStep.finishFail rfl)
    rw [List.erase_cons_head] at h3
    exact Relation.ReflTransGen.head h1
      (Relation.ReflTransGen.head h2 (Relation.ReflTransGen.single h3))
  · have key : ∀ s, Reach k false pollDeadState s →
        s.t1 = Phase.done Reply.failed ∧ s.t2 = Phase.polling ∧ s.sh.videos = [] := by
      intro s h
      induction h with
      | refl => exact ⟨rfl, rfl, rfl⟩
      | tail hab hbc ih =>
          obtain ⟨i1, i2, i3⟩ := ih
          cases hbc with
          | left hstep2 =>
              rw [i1] at hstep2
              cases hstep2
          | right hstep2 =>
              rw [i2] at hstep2
              cases hstep2 with
              | pollMiss hcond => exact ⟨i1, rfl, i3⟩
              | pollHit hng hmem =>
                  rw [i3] at hmem
                  exact absurd hmem (List.not_mem_nil k)
    exact fun s h => ⟨(key s h).2.1, (key s h).2.2⟩

/-- Witness for C7: the dead state itself — the waiter is polling and no
artifact file exists. -/
theorem waiter_never_resolves_witness :
    pollDeadState.t2 = Phase.polling ∧ pollDeadState.sh.videos = [] :=
  (waiter_never_resolves "c1_0min_7").2 pollDeadState Relation.ReflTransGen.refl

end StreamRecap
